import Mathlib

/-!
Verification of the asynchronous job-processing and real-time notification
core of the Semantic-Search-Engine repository.

The Go sources are shallowly embedded: Go values decoded from JSON become
the inductive `GoVal`; each stateful component (Redis list queue, SQS queue,
DynamoDB event table, the WebSocket connection registry) becomes an explicit
state value threaded through pure step functions translated line by line
from the corresponding Go functions.  External collaborators (the JSON
decoder of the standard library, clocks) enter as explicit parameters.
Time values are abstracted to integer/natural ticks.  Go struct fields named
`Type` are rendered `jobType`/`msgType` because `Type` is reserved in Lean.
-/

namespace SSE

/-- A Go `interface{}` value as produced by `json.Unmarshal`:
`nil`, booleans, numbers, strings, arrays and string-keyed maps. -/
inductive GoVal where
  | null : GoVal
  | bool (b : Bool) : GoVal
  | num (n : Int) : GoVal
  | str (s : String) : GoVal
  | arr (elems : List GoVal) : GoVal
  | obj (fields : List (String × GoVal)) : GoVal

/-- `queue.Job` (worker.go): unit of deferred work.  `CreatedAt` is an
abstract tick (0 plays the role of Go's zero `time.Time`). -/
structure Job where
  ID : String
  jobType : String
  Data : List (String × GoVal)
  CreatedAt : Nat
  Attempts : Nat
  MaxRetries : Nat

/-- `types.QueueMessage` (messaging.go): transport-neutral envelope
returned by `Dequeue`; `Payload` is a Go `interface{}`. -/
structure QueueMessage where
  ID : String
  msgType : String
  Payload : GoVal

/-- A job handler `func(ctx, *Job) error`; `none` is a nil error (success),
`some e` a failure.  Handlers are treated as pure in the embedding. -/
def JobHandler : Type := Job → Option String

/-- The observable effects of one `Worker.processMessage` call
(worker.go, lines 65-133): the handler invocations performed (0 or 1),
the `Enqueue` calls issued (jobType plus the `*Job` passed), the `Delete`
calls issued, and which early-return drop path (if any) was taken. -/
structure ProcessEffects where
  handlerCalls : List Job
  enqueues : List (String × Job)
  deletes : List String
  malformedDrop : Bool
  noHandlerDrop : Bool

/-- `Worker.processMessage` (worker.go, lines 65-133), translated branch by
branch.  `handlers` is the worker's registry, `decode` the standard
library's `json.Unmarshal` into `map[string]interface{}` (an explicit
collaborator parameter: `none` = decode error), `now` the current tick.

The Go function rebuilds a fresh `Job` from the message with
`Data = make(map[string]interface{})` and `Attempts = 0`; a map payload
becomes `Data` directly, a string payload is JSON-decoded (returning on
error), any other payload shape falls through with `Data` left empty.
Defaults are then applied (`Attempts 0 -> 1`, `MaxRetries 0 -> 3`,
zero `CreatedAt -> now`), the handler looked up and invoked; on failure
with `Attempts < MaxRetries` the job is re-submitted through `Enqueue`
after `Attempts++`, otherwise it is dropped.  No branch calls `Delete`. -/
def Worker.processMessage (handlers : String → Option JobHandler)
    (decode : String → Option (List (String × GoVal)))
    (now : Nat) (msg : QueueMessage) : ProcessEffects :=
  let dataRes : Option (List (String × GoVal)) :=
    match msg.Payload with
    | .obj fields => some fields
    | .str s =>
      match decode s with
      | some m => some m
      | none => none
    | _ => some []
  match dataRes with
  | none =>
    { handlerCalls := [], enqueues := [], deletes := [],
      malformedDrop := true, noHandlerDrop := false }
  | some data =>
    match handlers msg.msgType with
    | none =>
      { handlerCalls := [], enqueues := [], deletes := [],
        malformedDrop := false, noHandlerDrop := true }
    | some handler =>
      let job : Job :=
        { ID := msg.ID, jobType := msg.msgType, Data := data,
          CreatedAt := 0, Attempts := 0, MaxRetries := 0 }
      let job : Job :=
        { job with
          Attempts := if job.Attempts = 0 then 1 else job.Attempts,
          MaxRetries := if job.MaxRetries = 0 then 3 else job.MaxRetries,
          CreatedAt := if job.CreatedAt = 0 then now else job.CreatedAt }
      match handler job with
      | none =>
        { handlerCalls := [job], enqueues := [], deletes := [],
          malformedDrop := false, noHandlerDrop := false }
      | some _err =>
        if job.Attempts < job.MaxRetries then
          { handlerCalls := [job],
            enqueues := [(job.jobType, { job with Attempts := job.Attempts + 1 })],
            deletes := [],
            malformedDrop := false, noHandlerDrop := false }
        else
          { handlerCalls := [job], enqueues := [], deletes := [],
            malformedDrop := false, noHandlerDrop := false }

/-- The body of `Worker.Start`'s inner loop over one dequeued batch
(worker.go, lines 58-60): each message is processed in order. -/
def Worker.processBatch (handlers : String → Option JobHandler)
    (decode : String → Option (List (String × GoVal)))
    (now : Nat) (msgs : List QueueMessage) : List ProcessEffects :=
  msgs.map (Worker.processMessage handlers decode now)

/-- The payload argument of `Queue.Enqueue`: the worker passes a `*queue.Job`;
any other Go value is possible at the interface. -/
inductive EnqueuePayload where
  | jobPtr (j : Job) : EnqueuePayload
  | goVal (v : GoVal) : EnqueuePayload

/-- `RedisQueue.Enqueue` (redis queue source, lines 31-48): the payload must
type-assert to `*Job`, otherwise the call fails having sent nothing; on
success the marshalled job is `LPush`ed (prepended on the left of the
list).  Marshalling a `Job` cannot fail in the embedded value domain. -/
def RedisQueue.Enqueue (q : List Job) (_jobType : String)
    (payload : EnqueuePayload) : Except String (List Job) :=
  match payload with
  | .jobPtr job => .ok (job :: q)
  | .goVal _ => .error "invalid payload type, expected *Job"

/-- `RedisQueue.Dequeue` (redis queue source, lines 50-76): `BRPop` takes
the rightmost (oldest) entry, or times out on an empty list returning
`nil, nil` (no messages, no error).  The entry is unmarshalled back into a
`Job` and repackaged: `ID` and `Type` come from the job, and `Payload`
carries only `job.Data` — the `Attempts`/`MaxRetries` fields are not
propagated into the `QueueMessage`. -/
def RedisQueue.Dequeue (q : List Job) : List QueueMessage × List Job :=
  match q.getLast? with
  | none => ([], q)
  | some job =>
    ([{ ID := job.ID, msgType := job.jobType, Payload := .obj job.Data }], q.dropLast)

/-- State of one worker polling one Redis queue: the queue contents plus the
accumulated list of handler invocations (each entry is the `Job` value the
handler received). -/
structure RedisWorkerState where
  queue : List Job
  handlerCalls : List Job

/-- One iteration of `Worker.Start`'s loop (worker.go, lines 42-62) against
the Redis backend: `Dequeue`, then `processMessage` for each returned
message, whose `Enqueue` effects (always `*Job` pointers, worker.go line
120) are applied back to the queue. -/
def redisWorkerStep (handlers : String → Option JobHandler)
    (decode : String → Option (List (String × GoVal)))
    (now : Nat) (st : RedisWorkerState) : RedisWorkerState :=
  match RedisQueue.Dequeue st.queue with
  | ([], _) => st
  | (msg :: _, q1) =>
    let eff := Worker.processMessage handlers decode now msg
    let q2 := eff.enqueues.foldl
      (fun q pr =>
        match RedisQueue.Enqueue q pr.1 (.jobPtr pr.2) with
        | .ok q2 => q2
        | .error _ => q) q1
    { queue := q2, handlerCalls := st.handlerCalls ++ eff.handlerCalls }

/-- `n` iterations of the worker loop against the Redis backend. -/
def redisWorkerRun (handlers : String → Option JobHandler)
    (decode : String → Option (List (String × GoVal)))
    (now : Nat) (st : RedisWorkerState) : Nat → RedisWorkerState
  | 0 => st
  | n + 1 => redisWorkerStep handlers decode now (redisWorkerRun handlers decode now st n)

/-- A handler registry with a single type `"t"` whose handler fails on
every invocation. -/
def alwaysFailHandlers : String → Option JobHandler :=
  fun t => if t = "t" then some (fun _ => some "boom") else none

/-- A decode collaborator that is never consulted in runs whose payloads
are maps. -/
def noDecode : String → Option (List (String × GoVal)) := fun _ => none

/-- The initial job of the failing-job scenario: `MaxRetries = 3`,
`Attempts = 0`, as produced by the `Create*Job` constructors. -/
def failJob : Job :=
  { ID := "j1", jobType := "t", Data := [], CreatedAt := 0,
    Attempts := 0, MaxRetries := 3 }

/-- Indexing into a decoded JSON map, Go's `msgData["key"]`; an absent key
yields the zero `interface{}` value, `nil`. -/
def lookupField (fields : List (String × GoVal)) (k : String) : GoVal :=
  match fields.find? (fun p => p.1 = k) with
  | some p => p.2
  | none => .null

/-- A `*Job` value as `json.Marshal` renders it: the field names of the
`json:"..."` tags on `queue.Job`, with the timestamp abstracted to a
numeric tick. -/
def Job.marshal (j : Job) : GoVal :=
  .obj [("id", .str j.ID), ("type", .str j.jobType), ("data", .obj j.Data),
        ("created_at", .num j.CreatedAt), ("attempts", .num j.Attempts),
        ("max_retries", .num j.MaxRetries)]

/-- The marshalled form of an `Enqueue` payload argument. -/
def EnqueuePayload.marshal : EnqueuePayload → GoVal
  | .jobPtr j => j.marshal
  | .goVal v => v

/-- The SQS queue state: the pending message bodies in arrival order.
Receipt handles are synthesized per receive from the position. -/
structure SqsState where
  msgs : List GoVal

/-- `SQSQueue.Enqueue` (sqs queue source, lines 37-58): wraps the payload
in a `{"type": jobType, "payload": payload}` envelope, marshals it and
sends it as one message.  Marshalling cannot fail in the embedded value
domain and a send either appends the whole body or (on a backend fault,
not modelled) appends nothing — there is no partial send. -/
def SQSQueue.Enqueue (st : SqsState) (jobType : String)
    (payload : EnqueuePayload) : SqsState :=
  { msgs := st.msgs ++ [.obj [("type", .str jobType), ("payload", payload.marshal)]] }

/-- `SQSQueue.Dequeue` (sqs queue source, lines 60-95): receives up to 10
messages without removing them (SQS hides them behind a visibility
timeout instead).  Each body is unmarshalled into a map (a non-map body
fails and is skipped), a missing or non-string `"type"` is skipped, and
the rest becomes a `QueueMessage` whose `ID` is the receipt handle and
whose `Payload` is the envelope's `"payload"` entry. -/
def SQSQueue.Dequeue (st : SqsState) : List QueueMessage :=
  (st.msgs.take 10).enum.filterMap (fun p =>
    match p.2 with
    | .obj fields =>
      match lookupField fields "type" with
      | .str t =>
        some { ID := "rh-" ++ toString p.1, msgType := t,
               Payload := lookupField fields "payload" }
      | _ => none
    | _ => none)

/-! ## Connection hub (websocket.go) -/

/-- One registered `Client` (websocket.go): its identity (Go uses the
pointer; here a numeral), its subscription filter `projectID` (empty =
unscoped), and its bounded outbound buffer `send` abstracted to its
occupancy, capacity (256 in the source) and closed flag. -/
structure BClient where
  cid : Nat
  projectID : String
  sendLen : Nat
  sendCap : Nat
  sendClosed : Bool
deriving Repr, DecidableEq

/-- The `handlers.Message` envelope, with the payload fields irrelevant to
routing kept abstract. -/
structure WsMessage where
  msgType : String
  projectID : String
deriving Repr, DecidableEq

/-- The filter condition of `broadcastMessage` (websocket.go, line 267):
`msg.ProjectID == "" || client.projectID == "" || client.projectID ==
msg.ProjectID`. -/
def shouldDeliver (msg : WsMessage) (c : BClient) : Bool :=
  msg.projectID = "" || c.projectID = "" || c.projectID = msg.projectID

/-- `WebSocketHandler.broadcastMessage` (websocket.go, lines 256-277) over
the registry in iteration order.  For each client passing the filter, a
non-blocking send is attempted: it succeeds when the buffer is below
capacity (occupancy grows by one); otherwise the `default` branch deletes
the client from the registry and closes its channel.  The function
returns the registry afterwards, the clients that had the message
enqueued (at their pre-send state) and the clients removed (with their
buffer marked closed).  It returns no error to the caller — marshal
failure aside (impossible in the embedded domain), there is no error
path. -/
def WebSocketHandler.broadcastMessage (msg : WsMessage) :
    List BClient → List BClient × List BClient × List BClient
  | [] => ([], [], [])
  | c :: rest =>
    let r := WebSocketHandler.broadcastMessage msg rest
    if shouldDeliver msg c then
      if c.sendLen < c.sendCap then
        ({ c with sendLen := c.sendLen + 1 } :: r.1, c :: r.2.1, r.2.2)
      else
        (r.1, r.2.1, { c with sendClosed := true } :: r.2.2)
    else
      (c :: r.1, r.2.1, r.2.2)

/-- `Client.sendMessage` (websocket.go, lines 209-221), the direct
per-connection reply path: a non-blocking send on `c.send`; the `default`
branch merely closes the channel.  The registry is not consulted and no
error is reported. -/
def Client.sendMessage (c : BClient) (_msg : WsMessage) : BClient :=
  if c.sendLen < c.sendCap then { c with sendLen := c.sendLen + 1 }
  else { c with sendClosed := true }

/-- A direct reply to one registered client, as performed by the read-loop
handlers: the shared channel state of that client changes via
`Client.sendMessage`; the registry set itself is untouched. -/
def hubReply (clients : List BClient) (cid : Nat) (msg : WsMessage) : List BClient :=
  clients.map (fun c => if c.cid = cid then Client.sendMessage c msg else c)

/-! ## Poll-emulated event bus (dynamodb.go) -/

/-- One row of the `<table>_events` DynamoDB table as written by
`DynamoPubSub.Publish` (dynamodb.go, lines 129-159): topic, the published
`Data` carried inside the stored `EventMessage` JSON, the `timestamp`
attribute (unix seconds) and the `ttl` attribute. -/
structure DbEvent where
  topic : String
  data : GoVal
  timestamp : Int
  ttl : Int

/-- `DynamoPubSub.Publish` at tick `now`: appends one event row with
`timestamp = now` and `ttl = now + 3600` (one hour of retention). -/
def DynamoPubSub.Publish (store : List DbEvent) (topic : String)
    (message : GoVal) (now : Int) : List DbEvent :=
  store ++ [{ topic := topic, data := message, timestamp := now, ttl := now + 3600 }]

/-- The query one poll tick of `DynamoPubSub.Subscribe` issues
(dynamodb.go, lines 172-184): `since := now - 5` and the key condition
`topic = :t AND timestamp > :since`.  There is no per-subscription
checkpoint — `since` is recomputed from the wall clock at every tick. -/
def dynamoPollQuery (store : List DbEvent) (topic : String) (now : Int) :
    List DbEvent :=
  store.filter (fun e => e.topic = topic && now - 5 < e.timestamp)

/-- One step of the environment as seen by the `Subscribe` goroutine's
`select`: either the 5-second ticker fires at tick `now` with the event
table in state `store`, or the subscribing context is observed cancelled. -/
inductive SubStep where
  | tick (now : Int) (store : List DbEvent) : SubStep
  | cancel : SubStep

/-- An observable action on the channel returned by `Subscribe`: a value
delivery or the single `close(ch)`. -/
inductive SubOut where
  | send (v : GoVal) : SubOut
  | close : SubOut

/-- The number of `close` actions in a trace. -/
def countClose : List SubOut → Nat
  | [] => 0
  | .close :: rest => countClose rest + 1
  | .send _ :: rest => countClose rest

/-- Whether a `SubStep` is the cancellation observation. -/
def SubStep.isCancel : SubStep → Bool
  | .cancel => true
  | .tick _ _ => false

/-- `DynamoPubSub.Subscribe`'s goroutine (dynamodb.go, lines 161-209) run
over a finite schedule of select outcomes: a tick queries the events on
the topic newer than `now - 5` and pushes each decoded `Data` to the
channel; observing cancellation returns from the goroutine, firing the
deferred `close(ch)` and ignoring the rest of the schedule; if the
schedule ends with the loop still parked in the select, nothing further
is emitted and the channel stays open.  (A query backend fault merely
logs and continues and is not modelled.) -/
def DynamoPubSub.SubscribeRun (topic : String) : List SubStep → List SubOut
  | [] => []
  | .cancel :: _ => [.close]
  | .tick now store :: rest =>
    (dynamoPollQuery store topic now).map (fun e => SubOut.send e.data)
      ++ DynamoPubSub.SubscribeRun topic rest

/-- `RedisPubSub.Subscribe`'s goroutine (redis queue source, lines
131-147): it ranges over the third-party client's message stream
(`pubsub.Channel()`), forwarding each payload that JSON-decodes (a decode
failure skips the message), and closes the returned channel when — and
only when — that underlying stream ends.  The stream is modelled as the
list of decode results of the received payloads plus a flag saying
whether it ended within the observation window.  The subscribing context
`ctxCancelled` is faithfully unused: nothing in the loop consults it, so
closure is driven solely by the client stream's lifetime (for example
`RedisPubSub.Close`), not by cancellation. -/
def RedisPubSub.SubscribeRun (input : List (Option GoVal)) (inputEnded : Bool)
    (_ctxCancelled : Bool) : List SubOut :=
  input.filterMap (fun o => o.map SubOut.send)
    ++ (if inputEnded then [.close] else [])

/-! ## Theorems -/

/-- The job the Redis round trip leaves in the queue after a failed
dispatch of `failJob`: `Attempts` was incremented to 2 before the
re-submitting `Enqueue`. -/
def requeuedJob : Job :=
  { ID := "j1", jobType := "t", Data := [], CreatedAt := 1,
    Attempts := 2, MaxRetries := 3 }

/-- The job value every dispatch hands to the handler in the failing-job
scenario: `Attempts` is 1 on every attempt, because `RedisQueue.Dequeue`
repackages only `job.Data` into the message and `processMessage` rebuilds
the job with `Attempts = 0`, then defaults it to 1. -/
def dispatchedJob : Job :=
  { ID := "j1", jobType := "t", Data := [], CreatedAt := 1,
    Attempts := 1, MaxRetries := 3 }

/-- One worker iteration on a queue holding only the fresh `failJob`
re-submits it as `requeuedJob` and performs one handler call on
`dispatchedJob`. -/
theorem redisStep_on_failJob (hcs : List Job) :
    redisWorkerStep alwaysFailHandlers noDecode 1
        { queue := [failJob], handlerCalls := hcs }
      = { queue := [requeuedJob], handlerCalls := hcs ++ [dispatchedJob] } := rfl

/-- One worker iteration on a queue holding only the re-submitted job
behaves identically: the incremented `Attempts` was lost in transit, so
the job is dispatched with `Attempts = 1` and re-submitted again. -/
theorem redisStep_on_requeuedJob (hcs : List Job) :
    redisWorkerStep alwaysFailHandlers noDecode 1
        { queue := [requeuedJob], handlerCalls := hcs }
      = { queue := [requeuedJob], handlerCalls := hcs ++ [dispatchedJob] } := rfl

/-- C1.  The claim — an always-failing job with `MaxRetries = N` has its
handler invoked exactly `N` times, is never re-submitted after the `N`th
failure, and its `Attempts` never decreases — fails on the code.
`RedisQueue.Dequeue` rebuilds the `QueueMessage` from the stored job with
`Payload = job.Data` only, so the `Attempts` recorded by the re-submitting
`Enqueue` never reaches the next dispatch, which resets it to 1.  For the
concrete always-failing job with `MaxRetries = 3`: after `n` loop
iterations the handler has been invoked `n` times for every `n` (4 > 3
included); every single dispatch saw `Attempts = 1` even though the job
re-enqueued after each failure carried `Attempts = 2` (a decrease between
dispatch attempts); and after the third failure the queue still holds a
re-submitted copy of the job. -/
theorem worker_retries_unbounded_on_redis :
    (∀ n, (redisWorkerRun alwaysFailHandlers noDecode 1
        { queue := [failJob], handlerCalls := [] } n).handlerCalls.length = n)
    ∧ (redisWorkerRun alwaysFailHandlers noDecode 1
        { queue := [failJob], handlerCalls := [] } 4).handlerCalls.map Job.Attempts
      = [1, 1, 1, 1]
    ∧ (redisWorkerRun alwaysFailHandlers noDecode 1
        { queue := [failJob], handlerCalls := [] } 3).queue.map Job.Attempts
      = [2] := by
  refine ⟨?_, rfl, rfl⟩
  have key : ∀ n, ((redisWorkerRun alwaysFailHandlers noDecode 1
      { queue := [failJob], handlerCalls := [] } n).queue = [failJob]
        ∨ (redisWorkerRun alwaysFailHandlers noDecode 1
      { queue := [failJob], handlerCalls := [] } n).queue = [requeuedJob])
      ∧ (redisWorkerRun alwaysFailHandlers noDecode 1
      { queue := [failJob], handlerCalls := [] } n).handlerCalls.length = n := by
    intro n
    induction n with
    | zero => exact ⟨Or.inl rfl, rfl⟩
    | succ n ih =>
      obtain ⟨hq, hlen⟩ := ih
      have heta : redisWorkerRun alwaysFailHandlers noDecode 1
          { queue := [failJob], handlerCalls := [] } (n + 1)
          = redisWorkerStep alwaysFailHandlers noDecode 1
            { queue := (redisWorkerRun alwaysFailHandlers noDecode 1
                { queue := [failJob], handlerCalls := [] } n).queue,
              handlerCalls := (redisWorkerRun alwaysFailHandlers noDecode 1
                { queue := [failJob], handlerCalls := [] } n).handlerCalls } := rfl
      rcases hq with hq | hq <;>
        rw [heta, hq] <;>
        [rw [redisStep_on_failJob]; rw [redisStep_on_requeuedJob]] <;>
        simp [hlen]
  exact fun n => (key n).2

/-- A handler registry with a single type `"t"` whose handler succeeds on
every invocation. -/
def alwaysSucceedHandlers : String → Option JobHandler :=
  fun t => if t = "t" then some (fun _ => none) else none

/-- A successfully processed message of the ack scenario. -/
def ackMsg : QueueMessage := { ID := "m1", msgType := "t", Payload := .obj [] }

/-- C2.  The worker engine never acknowledges: no branch of
`Worker.processMessage` issues a `Delete` call — for any registry, decode
collaborator and message — and in particular the concrete successful
dispatch of `ackMsg` (handler invoked once, returning nil) ends with no
`Delete` of the message's acknowledgment ID.  For a transport with
visibility-timeout semantics (SQS, whose `Dequeue` does not remove the
received message) the processed message therefore remains deletable and
will be redelivered. -/
theorem worker_never_deletes_on_success :
    (∀ handlers decode now msg,
      (Worker.processMessage handlers decode now msg).deletes = [])
    ∧ (Worker.processMessage alwaysSucceedHandlers noDecode 1 ackMsg).handlerCalls.length = 1
    ∧ (Worker.processMessage alwaysSucceedHandlers noDecode 1 ackMsg).deletes = []
    ∧ SQSQueue.Dequeue (SQSQueue.Enqueue { msgs := [] } "t" (.goVal (.obj [])))
      = [{ ID := "rh-0", msgType := "t", Payload := .obj [] }] := by
  refine ⟨?_, rfl, rfl, rfl⟩
  intro h d n m
  rcases m with ⟨mid, mty, p⟩
  cases p <;> unfold Worker.processMessage <;> dsimp only <;>
    repeat' first | rfl | split

/-- C6 counterexample.  The scenario `Enqueue("ping", {"hello":"world"})`
fails on the Redis backend: its `Enqueue` accepts only `*Job` payloads,
so the call returns an error having sent nothing, and no subsequent
`Dequeue` can return the message — the claim does not hold for every
queue backend. -/
theorem redis_enqueue_rejects_scenario_payload :
    RedisQueue.Enqueue [] "ping" (.goVal (.obj [("hello", .str "world")]))
      = .error "invalid payload type, expected *Job" := rfl

/-- C6 amended.  On the SQS backend the scenario holds: the enqueued
`{"hello":"world"}` payload is wrapped in a `{type, payload}` envelope
appended as one whole message, and `Dequeue` returns it with
`Type = "ping"` and a deep-equal payload.  The Redis backend instead
rejects every non-`*Job` payload with an error (sending nothing), and for
a `*Job` payload its `Dequeue` reports the job's own `Type` and `Data`. -/
theorem enqueue_dequeue_roundtrip :
    SQSQueue.Dequeue (SQSQueue.Enqueue { msgs := [] } "ping"
        (.goVal (.obj [("hello", .str "world")])))
      = [{ ID := "rh-0", msgType := "ping",
           Payload := .obj [("hello", .str "world")] }]
    ∧ (∀ st jt v, (SQSQueue.Enqueue st jt (.goVal v)).msgs
        = st.msgs ++ [.obj [("type", .str jt), ("payload", v)]])
    ∧ (∀ q jt v, RedisQueue.Enqueue q jt (.goVal v)
        = .error "invalid payload type, expected *Job")
    ∧ (∀ j : Job, RedisQueue.Dequeue [j]
        = ([{ ID := j.ID, msgType := j.jobType, Payload := .obj j.Data }], [])) :=
  ⟨rfl, fun _ _ _ => rfl, fun _ _ _ => rfl, fun _ => rfl⟩

/-- C8 counterexample.  A dequeued message whose payload is the number 42
cannot be decoded into job data, yet it is not dropped: `processMessage`
falls through the type switch with `Data` left empty and still invokes
the handler.  (Such a message arises from `SQSQueue.Enqueue(ctx, "t", 42)`.) -/
theorem malformed_payload_still_dispatches :
    (Worker.processMessage alwaysFailHandlers noDecode 1
        { ID := "m1", msgType := "t", Payload := .num 42 }).handlerCalls.map Job.Data
      = [[]]
    ∧ (Worker.processMessage alwaysFailHandlers noDecode 1
        { ID := "m1", msgType := "t", Payload := .num 42 }).malformedDrop = false :=
  ⟨rfl, rfl⟩

/-- C8 amended.  A dequeued message whose payload is a string that fails
JSON decoding is dropped with no handler invocation, no re-enqueue and no
`Delete`, and the worker's batch loop continues with the subsequent
messages unchanged; only string payloads enjoy this drop path — any other
non-map payload shape is dispatched with empty job data. -/
theorem malformed_string_payload_dropped (handlers : String → Option JobHandler)
    (decode : String → Option (List (String × GoVal))) (now : Nat)
    (s mid mty : String) (rest : List QueueMessage) (hd : decode s = none) :
    Worker.processMessage handlers decode now { ID := mid, msgType := mty, Payload := .str s }
      = { handlerCalls := [], enqueues := [], deletes := [],
          malformedDrop := true, noHandlerDrop := false }
    ∧ Worker.processBatch handlers decode now
        ({ ID := mid, msgType := mty, Payload := .str s } :: rest)
      = Worker.processMessage handlers decode now { ID := mid, msgType := mty, Payload := .str s }
          :: Worker.processBatch handlers decode now rest := by
  constructor
  · unfold Worker.processMessage
    simp [hd]
  · rfl

/-- Witness for `malformed_string_payload_dropped` at a concrete decoder
that rejects `"not-json"`. -/
theorem malformed_string_payload_dropped_witness :
    Worker.processMessage alwaysFailHandlers (fun _ => none) 1
        { ID := "m1", msgType := "t", Payload := .str "not-json" }
      = { handlerCalls := [], enqueues := [], deletes := [],
          malformedDrop := true, noHandlerDrop := false } :=
  (malformed_string_payload_dropped alwaysFailHandlers (fun _ => none) 1
    "not-json" "m1" "t" [] rfl).1

/-- The clients a broadcast enqueues the message to are exactly the
registered clients passing the project filter whose buffer is below
capacity. -/
theorem broadcast_delivered_eq (msg : WsMessage) (clients : List BClient) :
    (WebSocketHandler.broadcastMessage msg clients).2.1
      = clients.filter (fun c => shouldDeliver msg c && decide (c.sendLen < c.sendCap)) := by
  induction clients with
  | nil => rfl
  | cons c rest ih =>
    simp only [WebSocketHandler.broadcastMessage, List.filter_cons]
    by_cases h1 : shouldDeliver msg c <;> by_cases h2 : c.sendLen < c.sendCap <;>
      simp [h1, h2, ih]

/-- The clients a broadcast removes (with their buffer closed) are exactly
the filter-passing clients whose buffer is at capacity. -/
theorem broadcast_removed_eq (msg : WsMessage) (clients : List BClient) :
    (WebSocketHandler.broadcastMessage msg clients).2.2
      = (clients.filter (fun c => shouldDeliver msg c && !decide (c.sendLen < c.sendCap))).map
          (fun c => { c with sendClosed := true }) := by
  induction clients with
  | nil => rfl
  | cons c rest ih =>
    simp only [WebSocketHandler.broadcastMessage, List.filter_cons]
    by_cases h1 : shouldDeliver msg c <;> by_cases h2 : c.sendLen < c.sendCap <;>
      simp [h1, h2, ih]

/-- The identities surviving a broadcast are those of the clients that were
not evicted (filter-passing with a full buffer). -/
theorem broadcast_registry_cids (msg : WsMessage) (clients : List BClient) :
    ((WebSocketHandler.broadcastMessage msg clients).1).map BClient.cid
      = (clients.filter (fun c => !(shouldDeliver msg c && !decide (c.sendLen < c.sendCap)))).map
          BClient.cid := by
  induction clients with
  | nil => rfl
  | cons c rest ih =>
    simp only [WebSocketHandler.broadcastMessage, List.filter_cons]
    by_cases h1 : shouldDeliver msg c <;> by_cases h2 : c.sendLen < c.sendCap <;>
      simp [h1, h2, ih]

/-- Under distinct client identities, an element rejected by a filter has
its identity absent from the filtered registry. -/
theorem cid_notin_filter {p : BClient → Bool} {clients : List BClient} {c : BClient}
    (hn : (clients.map BClient.cid).Nodup) (hmem : c ∈ clients) (hp : p c = false) :
    c.cid ∉ (clients.filter p).map BClient.cid := by
  induction clients with
  | nil => simp at hmem
  | cons a rest ih =>
    simp only [List.map_cons, List.nodup_cons] at hn
    rcases List.mem_cons.mp hmem with rfl | hmem2
    · simp only [List.filter_cons, hp, Bool.false_eq_true, if_false]
      intro hin
      obtain ⟨b, hb, hbc⟩ := List.mem_map.mp hin
      have hbrest : b ∈ rest := (List.mem_filter.mp hb).1
      exact hn.1 (hbc ▸ List.mem_map_of_mem BClient.cid hbrest)
    · rw [List.filter_cons]
      by_cases hpa : p a
      · simp only [hpa, if_true, List.map_cons]
        intro hin
        rcases List.mem_cons.mp hin with heq | hin2
        · exact absurd (heq ▸ List.mem_map_of_mem BClient.cid hmem2) hn.1
        · exact ih hn.2 hmem2 hin2
      · simp only [hpa, Bool.false_eq_true, if_false]
        exact ih hn.2 hmem2

/-- C3.  For a registered connection whose buffer has capacity: a broadcast
with `ProjectID = P ≠ ""` enqueues the message to it exactly when the
connection's filter is `P` or `""` (never when it is some other `Q`), and
a broadcast with `ProjectID = ""` enqueues to it regardless of filter —
`broadcastMessage`'s condition
`msg.ProjectID == "" || c.projectID == "" || c.projectID == msg.ProjectID`. -/
theorem broadcast_filters_by_project (clients : List BClient) (msg : WsMessage)
    (c : BClient) (hmem : c ∈ clients) (hcap : c.sendLen < c.sendCap) :
    (msg.projectID ≠ "" →
      (c ∈ (WebSocketHandler.broadcastMessage msg clients).2.1
        ↔ (c.projectID = msg.projectID ∨ c.projectID = "")))
    ∧ (msg.projectID = "" → c ∈ (WebSocketHandler.broadcastMessage msg clients).2.1) := by
  constructor
  · intro hne
    rw [broadcast_delivered_eq, List.mem_filter]
    constructor
    · rintro ⟨-, h⟩
      simp only [shouldDeliver, Bool.and_eq_true, Bool.or_eq_true, decide_eq_true_eq] at h
      rcases h with ⟨(he | hc) | hc, -⟩
      · exact absurd he hne
      · exact Or.inr hc
      · exact Or.inl hc
    · intro h
      refine ⟨hmem, ?_⟩
      simp only [shouldDeliver, Bool.and_eq_true, Bool.or_eq_true, decide_eq_true_eq]
      rcases h with h | h
      · exact ⟨Or.inr h, hcap⟩
      · exact ⟨Or.inl (Or.inr h), hcap⟩
  · intro he
    rw [broadcast_delivered_eq, List.mem_filter]
    refine ⟨hmem, ?_⟩
    simp only [shouldDeliver, Bool.and_eq_true, Bool.or_eq_true, decide_eq_true_eq]
    exact ⟨Or.inl (Or.inl he), hcap⟩

/-- A connection subscribed to project `"P"` with an empty buffer. -/
def pClient : BClient :=
  { cid := 1, projectID := "P", sendLen := 0, sendCap := 256, sendClosed := false }

/-- A broadcast message scoped to project `"P"`. -/
def pMsg : WsMessage := { msgType := "analysis_update", projectID := "P" }

/-- Witness for `broadcast_filters_by_project`: the registry `[pClient]`
and the `"P"`-scoped message. -/
theorem broadcast_filters_by_project_witness :
    (pMsg.projectID ≠ "" →
      (pClient ∈ (WebSocketHandler.broadcastMessage pMsg [pClient]).2.1
        ↔ (pClient.projectID = pMsg.projectID ∨ pClient.projectID = "")))
    ∧ (pMsg.projectID = "" →
        pClient ∈ (WebSocketHandler.broadcastMessage pMsg [pClient]).2.1) :=
  broadcast_filters_by_project [pClient] pMsg pClient (List.mem_singleton.mpr rfl)
    (by decide)

/-- C4.  A filter-passing connection whose buffer is at capacity when a
broadcast reaches it is removed: it appears (buffer closed) in the
removed list, its identity vanishes from the registry (given distinct
identities), and the broadcaster observes no error — `broadcastMessage`
returns nothing and has no failure path in the embedded domain.  A
subsequent broadcast still enqueues to every remaining registered
connection that passes its filter and has capacity. -/
theorem broadcast_overflow_evicts_silently (clients : List BClient)
    (msg msg2 : WsMessage) (c : BClient) (hmem : c ∈ clients)
    (hdel : shouldDeliver msg c = true) (hfull : ¬ c.sendLen < c.sendCap) :
    { c with sendClosed := true } ∈ (WebSocketHandler.broadcastMessage msg clients).2.2
    ∧ ((clients.map BClient.cid).Nodup →
        c.cid ∉ ((WebSocketHandler.broadcastMessage msg clients).1).map BClient.cid)
    ∧ (∀ c2 ∈ (WebSocketHandler.broadcastMessage msg clients).1,
        shouldDeliver msg2 c2 = true → c2.sendLen < c2.sendCap →
        c2 ∈ (WebSocketHandler.broadcastMessage msg2
          (WebSocketHandler.broadcastMessage msg clients).1).2.1) := by
  refine ⟨?_, ?_, ?_⟩
  · rw [broadcast_removed_eq]
    exact List.mem_map_of_mem _ (List.mem_filter.mpr ⟨hmem, by simp [hdel, hfull]⟩)
  · intro hn
    rw [broadcast_registry_cids]
    exact cid_notin_filter hn hmem (by simp [hdel, hfull])
  · intro c2 hc2 hd2 hcap2
    rw [broadcast_delivered_eq, List.mem_filter]
    exact ⟨hc2, by simp [hd2, hcap2]⟩

/-- An unscoped connection whose 256-slot buffer is at capacity. -/
def fullClient : BClient :=
  { cid := 0, projectID := "", sendLen := 256, sendCap := 256, sendClosed := false }

/-- An unscoped connection with an empty buffer. -/
def freeClient : BClient :=
  { cid := 1, projectID := "", sendLen := 0, sendCap := 256, sendClosed := false }

/-- An unscoped broadcast message. -/
def bmsg : WsMessage := { msgType := "analysis_update", projectID := "" }

/-- Witness for `broadcast_overflow_evicts_silently`: a registry holding a
full client and a free one; the full one is evicted and the free one
still receives the next broadcast. -/
theorem broadcast_overflow_evicts_silently_witness :
    { fullClient with sendClosed := true }
        ∈ (WebSocketHandler.broadcastMessage bmsg [fullClient, freeClient]).2.2
    ∧ (([fullClient, freeClient].map BClient.cid).Nodup →
        fullClient.cid ∉
          ((WebSocketHandler.broadcastMessage bmsg [fullClient, freeClient]).1).map BClient.cid)
    ∧ (∀ c2 ∈ (WebSocketHandler.broadcastMessage bmsg [fullClient, freeClient]).1,
        shouldDeliver bmsg c2 = true → c2.sendLen < c2.sendCap →
        c2 ∈ (WebSocketHandler.broadcastMessage bmsg
          (WebSocketHandler.broadcastMessage bmsg [fullClient, freeClient]).1).2.1) :=
  broadcast_overflow_evicts_silently [fullClient, freeClient] bmsg bmsg fullClient
    (by decide) (by decide) (by decide)

/-- C9 counterexample.  A broadcast does not leave the registered set
unchanged: on the registry `[fullClient]` (one matching connection at
buffer capacity) `broadcastMessage` returns an empty registry. -/
theorem broadcast_mutates_registry :
    (WebSocketHandler.broadcastMessage bmsg [fullClient]).1 ≠ [fullClient] := by decide

/-- C9 amended.  A broadcast reads the registry under the lock and the only
mutation it performs is eviction: the surviving identities are exactly
the clients that are not filter-passing-with-full-buffer, and whenever no
filter-passing connection's buffer is at capacity the broadcast leaves
the registered set unchanged. -/
theorem broadcast_reads_unless_evicting (clients : List BClient) (msg : WsMessage) :
    (((WebSocketHandler.broadcastMessage msg clients).1).map BClient.cid
      = (clients.filter
          (fun c => !(shouldDeliver msg c && !decide (c.sendLen < c.sendCap)))).map BClient.cid)
    ∧ ((∀ c ∈ clients, shouldDeliver msg c = true → c.sendLen < c.sendCap) →
        ((WebSocketHandler.broadcastMessage msg clients).1).map BClient.cid
          = clients.map BClient.cid) := by
  refine ⟨broadcast_registry_cids msg clients, ?_⟩
  intro hno
  rw [broadcast_registry_cids]
  congr 1
  rw [List.filter_eq_self]
  intro a ha
  by_cases h : shouldDeliver msg a
  · simp [h, hno a ha h]
  · simp [h]

/-- Witness for `broadcast_reads_unless_evicting`: a registry with one
free-buffer client is unchanged by a broadcast. -/
theorem broadcast_reads_unless_evicting_witness :
    ((WebSocketHandler.broadcastMessage bmsg [freeClient]).1).map BClient.cid
      = [freeClient].map BClient.cid :=
  (broadcast_reads_unless_evicting [freeClient] bmsg).2 (by decide)

/-- C10.  A direct per-connection reply (`welcome`, `subscribed`,
`unsubscribed`, `pong`, `error`) hitting a full outbound buffer closes
the buffer channel but removes nothing from the registry and reports no
error: the registered identities are untouched and the connection stays
registered with its buffer marked closed. -/
theorem reply_on_full_buffer_keeps_registration (clients : List BClient)
    (c : BClient) (msg : WsMessage) (hmem : c ∈ clients) (hfull : ¬ c.sendLen < c.sendCap) :
    ((hubReply clients c.cid msg).map BClient.cid = clients.map BClient.cid)
    ∧ { c with sendClosed := true } ∈ hubReply clients c.cid msg
    ∧ Client.sendMessage c msg = { c with sendClosed := true } := by
  have hsend : Client.sendMessage c msg = { c with sendClosed := true } := by
    unfold Client.sendMessage
    rw [if_neg hfull]
  refine ⟨?_, ?_, hsend⟩
  · unfold hubReply
    rw [List.map_map]
    apply List.map_congr_left
    intro a ha
    simp only [Function.comp_apply]
    by_cases h : a.cid = c.cid
    · rw [if_pos h]
      unfold Client.sendMessage
      split <;> rfl
    · rw [if_neg h]
  · unfold hubReply
    have hc : (fun x => if x.cid = c.cid then Client.sendMessage x msg else x) c
        = { c with sendClosed := true } := by
      simp [hsend]
    exact hc ▸ List.mem_map_of_mem _ hmem

/-- Witness for `reply_on_full_buffer_keeps_registration`: a `pong` reply
to `fullClient` closes its buffer and leaves it registered. -/
theorem reply_on_full_buffer_keeps_registration_witness :
    ((hubReply [fullClient] fullClient.cid { msgType := "pong", projectID := "" }).map BClient.cid
      = [fullClient].map BClient.cid)
    ∧ { fullClient with sendClosed := true }
        ∈ hubReply [fullClient] fullClient.cid { msgType := "pong", projectID := "" }
    ∧ Client.sendMessage fullClient { msgType := "pong", projectID := "" }
        = { fullClient with sendClosed := true } :=
  reply_on_full_buffer_keeps_registration [fullClient] fullClient
    { msgType := "pong", projectID := "" } (List.mem_singleton.mpr rfl) (by decide)

/-- `countClose` distributes over trace concatenation. -/
theorem countClose_append (a b : List SubOut) :
    countClose (a ++ b) = countClose a + countClose b := by
  induction a with
  | nil => simp [countClose]
  | cons x rest ih =>
    cases x with
    | send v => simp [countClose, ih]
    | close =>
      simp [countClose, ih]
      omega

/-- A block of value deliveries contains no close. -/
theorem countClose_sends {α : Type} (xs : List α) (f : α → GoVal) :
    countClose (xs.map (fun x => SubOut.send (f x))) = 0 := by
  induction xs with
  | nil => rfl
  | cons x rest ih => simpa [countClose] using ih

/-- The forwarded part of a Redis subscription trace contains no close. -/
theorem countClose_filterMap (input : List (Option GoVal)) :
    countClose (input.filterMap (fun o => o.map SubOut.send)) = 0 := by
  induction input with
  | nil => rfl
  | cons o rest ih => cases o <;> simpa [List.filterMap_cons, countClose] using ih

/-- A trace has no close exactly when `countClose` is zero. -/
theorem countClose_eq_zero_iff (t : List SubOut) :
    countClose t = 0 ↔ SubOut.close ∉ t := by
  induction t with
  | nil => simp [countClose]
  | cons x rest ih => cases x <;> simp [countClose, ih]

/-- In a trace of close-free deliveries followed by a single close,
nothing follows the close. -/
theorem after_close_nil (s : List SubOut) (hs : countClose s = 0) :
    ∀ l1 l2, s ++ [SubOut.close] = l1 ++ SubOut.close :: l2 → l2 = [] := by
  induction s with
  | nil =>
    intro l1 l2 h
    cases l1 with
    | nil => simpa using h
    | cons a t =>
      simp only [List.nil_append, List.cons_append, List.cons.injEq] at h
      have h2 := h.2
      cases t <;> simp at h2
  | cons x rest ih =>
    cases x with
    | close => simp [countClose] at hs
    | send v =>
      intro l1 l2 h
      cases l1 with
      | nil => simp at h
      | cons a t =>
        simp only [List.cons_append, List.cons.injEq] at h
        exact ih (by simpa [countClose] using hs) t l2 h.2

/-- Shape of a Dynamo subscription trace: either no cancellation was
observed and the trace is close-free, or it is a close-free block of
deliveries ended by the single close fired on cancellation. -/
theorem dynamoRun_shape (topic : String) (steps : List SubStep) :
    (countClose (DynamoPubSub.SubscribeRun topic steps) = 0
      ∧ ∀ s ∈ steps, s.isCancel = false)
    ∨ (∃ sends, DynamoPubSub.SubscribeRun topic steps = sends ++ [SubOut.close]
      ∧ countClose sends = 0 ∧ ∃ s ∈ steps, s.isCancel = true) := by
  induction steps with
  | nil => exact Or.inl ⟨rfl, by simp⟩
  | cons st rest ih =>
    cases st with
    | cancel =>
      right
      exact ⟨[], rfl, rfl, SubStep.cancel, List.mem_cons_self _ _, rfl⟩
    | tick now store =>
      rcases ih with ⟨hc, hnone⟩ | ⟨sends, heq, hcs, s, hsmem, hsc⟩
      · left
        refine ⟨?_, ?_⟩
        · simp [DynamoPubSub.SubscribeRun, countClose_append, hc, countClose_sends]
        · intro s hs
          rcases List.mem_cons.mp hs with rfl | h2
          · rfl
          · exact hnone s h2
      · right
        refine ⟨(dynamoPollQuery store topic now).map (fun e => SubOut.send e.data) ++ sends,
          ?_, ?_, s, List.mem_cons_of_mem _ hsmem, hsc⟩
        · simp [DynamoPubSub.SubscribeRun, heq]
        · simp [countClose_append, hcs, countClose_sends]

/-- C7 counterexample.  On the Redis backend the subscription channel can
close while the subscribing context was never cancelled: the goroutine
closes the returned channel when the third-party client's stream ends
(for instance after `RedisPubSub.Close`), and nothing in it consults the
context — here the input stream ends, the context is not cancelled, and
the trace is exactly one close. -/
theorem redis_subscribe_closes_without_cancel :
    RedisPubSub.SubscribeRun [] true false = [SubOut.close] := rfl

/-- C7 amended.  Every subscription channel is closed at most once and
nothing is delivered after the close.  For the poll-emulated Dynamo
backend the close happens exactly when the subscribing context's
cancellation is observed (the next select resumption, i.e. within one
poll interval) — never before and never silently.  For the Redis backend
the close happens exactly when the underlying client stream ends, an
event the code does not tie to the subscribing context: the trace is
identical whether or not the context is cancelled. -/
theorem subscribe_channel_closure (topic : String) (steps : List SubStep)
    (input : List (Option GoVal)) (ended cA cB : Bool) :
    countClose (DynamoPubSub.SubscribeRun topic steps) ≤ 1
    ∧ (SubOut.close ∈ DynamoPubSub.SubscribeRun topic steps
        ↔ ∃ s ∈ steps, s.isCancel = true)
    ∧ (∀ l1 l2, DynamoPubSub.SubscribeRun topic steps = l1 ++ SubOut.close :: l2 → l2 = [])
    ∧ countClose (RedisPubSub.SubscribeRun input ended cA) ≤ 1
    ∧ (SubOut.close ∈ RedisPubSub.SubscribeRun input ended cA ↔ ended = true)
    ∧ (∀ l1 l2, RedisPubSub.SubscribeRun input ended cA = l1 ++ SubOut.close :: l2 → l2 = [])
    ∧ RedisPubSub.SubscribeRun input ended cA = RedisPubSub.SubscribeRun input ended cB := by
  have hdyn := dynamoRun_shape topic steps
  refine ⟨?_, ?_, ?_, ?_, ?_, ?_, rfl⟩
  · rcases hdyn with ⟨hc, -⟩ | ⟨sends, heq, hcs, -⟩
    · omega
    · rw [heq, countClose_append, hcs]
      simp [countClose]
  · rcases hdyn with ⟨hc, hnone⟩ | ⟨sends, heq, hcs, s, hsmem, hsc⟩
    · rw [iff_iff_implies_and_implies]
      constructor
      · intro hmem
        exact absurd hmem ((countClose_eq_zero_iff _).mp hc)
      · rintro ⟨s, hs, hsc⟩
        exact absurd (hnone s hs) (by simp [hsc])
    · constructor
      · intro _
        exact ⟨s, hsmem, hsc⟩
      · intro _
        rw [heq]
        exact List.mem_append_right _ (List.mem_singleton.mpr rfl)
  · intro l1 l2 h
    rcases hdyn with ⟨hc, -⟩ | ⟨sends, heq, hcs, -⟩
    · exact absurd (h ▸ List.mem_append_right l1 (List.mem_cons_self _ _))
        ((countClose_eq_zero_iff _).mp hc)
    · exact after_close_nil sends hcs l1 l2 (heq ▸ h)
  · unfold RedisPubSub.SubscribeRun
    cases ended <;> simp [countClose_append, countClose_filterMap, countClose]
  · have hno := (countClose_eq_zero_iff _).mp (countClose_filterMap input)
    unfold RedisPubSub.SubscribeRun
    cases ended with
    | true =>
      constructor
      · intro _
        rfl
      · intro _
        exact List.mem_append_right _ (List.mem_singleton.mpr rfl)
    | false =>
      constructor
      · intro hmem
        rw [if_neg (by simp), List.append_nil] at hmem
        exact absurd hmem hno
      · intro hf
        exact absurd hf (by simp)
  · intro l1 l2 h
    unfold RedisPubSub.SubscribeRun at h
    cases ended with
    | false =>
      rw [if_neg (by simp), List.append_nil] at h
      exact absurd (h ▸ List.mem_append_right l1 (List.mem_cons_self _ _))
        ((countClose_eq_zero_iff _).mp (countClose_filterMap input))
    | true =>
      rw [if_pos rfl] at h
      exact after_close_nil _ (countClose_filterMap input) l1 l2 h

/-- The single event row of the late-subscriber scenario: published on
topic `"t"` at tick 0, retained until tick 3600. -/
def earlyEvent : DbEvent :=
  { topic := "t", data := .num 42, timestamp := 0, ttl := 3600 }

/-- C5 counterexample.  A poll-emulated subscription has no checkpoint:
`Publish` at tick 0 stores `earlyEvent` with a one-hour TTL; a
subscription whose first ticks occur at ticks 5 and 10 queries only
`timestamp > now - 5` and therefore never delivers the event, although it
is well inside the retention window — a late subscriber does not receive
events published before it subscribed, and the event is skipped outright. -/
theorem dynamo_poll_skips_retained_event :
    DynamoPubSub.Publish [] "t" (.num 42) 0 = [earlyEvent]
    ∧ DynamoPubSub.SubscribeRun "t"
        [SubStep.tick 5 [earlyEvent], SubStep.tick 10 [earlyEvent]] = []
    ∧ earlyEvent.timestamp = 0 ∧ earlyEvent.ttl = 3600 :=
  ⟨rfl, rfl, rfl, rfl⟩

/-- C5 amended.  Each poll tick at time `τ` delivers exactly the events on
the topic with `timestamp > τ - 5` — a sliding wall-clock window, not a
per-subscription checkpoint.  An event already stored by tick `τ` that is
delivered then is not redelivered at the next tick `τ + 5` (so the 5-second
tick spacing prevents duplicates), but an event whose timestamp is 5 or
more below the tick time is never delivered at all: a late subscriber
sees only the last 5 seconds, not the retention window. -/
theorem dynamo_poll_sliding_window (store store2 : List DbEvent) (topic : String) (τ : Int)
    (hpast : ∀ e ∈ store, e.timestamp ≤ τ) :
    (∀ e ∈ dynamoPollQuery store topic τ, τ - 5 < e.timestamp ∧ e.topic = topic)
    ∧ (∀ e ∈ store, e ∈ dynamoPollQuery store topic τ →
        e ∉ dynamoPollQuery store2 topic (τ + 5))
    ∧ (∀ e ∈ store, e.timestamp ≤ τ - 5 → e ∉ dynamoPollQuery store topic τ) := by
  refine ⟨?_, ?_, ?_⟩
  · intro e he
    have h := (List.mem_filter.mp he).2
    simp only [Bool.and_eq_true, decide_eq_true_eq] at h
    exact ⟨h.2, h.1⟩
  · intro e he hin hin2
    have h2 := (List.mem_filter.mp hin2).2
    simp only [Bool.and_eq_true, decide_eq_true_eq] at h2
    have h3 : τ < e.timestamp := by omega
    exact absurd h3 (not_lt.mpr (hpast e he))
  · intro e he hold hin
    have h := (List.mem_filter.mp hin).2
    simp only [Bool.and_eq_true, decide_eq_true_eq] at h
    omega

/-- Witness for `dynamo_poll_sliding_window`: the store holding only
`earlyEvent` examined by a tick at time 3. -/
theorem dynamo_poll_sliding_window_witness :
    (∀ e ∈ dynamoPollQuery [earlyEvent] "t" 3, (3:Int) - 5 < e.timestamp ∧ e.topic = "t")
    ∧ (∀ e ∈ [earlyEvent], e ∈ dynamoPollQuery [earlyEvent] "t" 3 →
        e ∉ dynamoPollQuery [earlyEvent] "t" (3 + 5))
    ∧ (∀ e ∈ [earlyEvent], e.timestamp ≤ (3:Int) - 5 →
        e ∉ dynamoPollQuery [earlyEvent] "t" 3) :=
  dynamo_poll_sliding_window [earlyEvent] [earlyEvent] "t" 3
    (by
      intro e he
      rw [List.mem_singleton] at he
      subst he
      decide)

end SSE
